import Mathlib

/-!
Shallow embedding of `populate_db.py`, a script that generates synthetic
users, products and orders and inserts them into a remote backend in
fixed-size batches.

Randomness (the `faker` and `random` libraries) is modelled by oracle
structures: each random primitive consumes an abstract draw supplied by an
oracle function indexed by the loop iteration.  The remote backend is
modelled by a function from batch index to a response; a response either
carries a data payload (the confirmed rows, echoing backend-assigned ids),
carries an explicit error, or stands for an exception raised during the
call.  The driver (`__main__`) is modelled as a function producing the list
of observable events (generator runs, remote insert calls, the early abort,
normal completion).
-/

namespace PopulateDb

/-- A generated user record (the dict built in `generate_users`). -/
structure UserRec where
  name : String
  email : String
  city : String
  signup_date : String
deriving DecidableEq, Repr

/-- A generated product record (the dict built in `generate_products`). -/
structure ProductRec where
  name : String
  description : String
  price : ℚ
  category : String
  stock_quantity : ℤ
deriving DecidableEq, Repr

/-- A generated order record (the dict built in `generate_orders`). -/
structure OrderRec where
  user_id : Nat
  product_id : Nat
  quantity : ℤ
  order_status : String
  order_date : String
deriving DecidableEq, Repr

/-- A record echoed back by the backend.  The driver only ever inspects the
presence and value of the `id` key, so the model keeps exactly that. -/
structure RetRec where
  id? : Option Nat
deriving DecidableEq, Repr

/-- `random.randint(a, b)`: an integer `N` with `a ≤ N ≤ b`; the abstract
draw `r` selects which one. -/
def randint (a b : ℤ) (r : Nat) : ℤ := a + ((r % (b - a + 1).toNat : Nat) : ℤ)

/-- `random.choice(seq)`: `seq[k]` for a drawn index `k`; raises `IndexError`
on an empty sequence, hence the nonemptiness proof obligation. -/
def pyChoice (l : List α) (h : l ≠ []) (r : Nat) : α :=
  l.get ⟨r % l.length, Nat.mod_lt _ (List.length_pos.mpr h)⟩

/-- `random.uniform(a, b)`: `a + (b - a) * u` for a draw `u`; the draw is
clamped to `[0, 1]` so the result lies in `[a, b]` as the library guarantees
(Python floats are modelled as rationals). -/
def uniform (a b : ℚ) (u : ℚ) : ℚ := a + (b - a) * max 0 (min 1 u)

/-- Python's `round()` on an integer-scaled value: round half to even. -/
def roundHalfEven (q : ℚ) : ℤ :=
  if q - ⌊q⌋ = 1 / 2 then (if 2 ∣ ⌊q⌋ then ⌊q⌋ else ⌊q⌋ + 1) else round q

/-- Python's `round(x, 2)`. -/
def pyRound2 (q : ℚ) : ℚ := (roundHalfEven (q * 100) : ℚ) / 100

/-- Oracle for the faker draws consumed by one iteration of
`generate_users`.  `fake.unique.email()` never returns the same value twice
within one uniqueness session (the session spans one generation call, being
cleared at its end), which is modelled as injectivity of the `email` oracle
where a theorem needs it. -/
structure UserOracle where
  name : Nat → String
  email : Nat → String
  city : Nat → String
  signup_date : Nat → String

/-- `generate_users(count)`: `count` records built from faker draws. -/
def generate_users (count : Nat) (o : UserOracle) : List UserRec :=
  (List.range count).map fun i =>
    { name := o.name i
      email := o.email i
      city := o.city i
      signup_date := o.signup_date i }

/-- The category list hard-coded in `generate_products`. -/
def categories : List String :=
  ["Electronics", "Books", "Clothing", "Home Goods", "Grocery", "Toys",
   "Sports", "Outdoors", "Beauty", "Automotive"]

/-- Oracle for the faker/random draws consumed by one iteration of
`generate_products`. -/
structure ProductOracle where
  bs : Nat → String
  word : Nat → String
  paragraph : Nat → String
  priceDraw : Nat → ℚ
  catDraw : Nat → Nat
  stockDraw : Nat → Nat

/-- `generate_products(count)`: `count` records built from faker/random
draws; the price is `max(0.01, round(random.uniform(1.0, 2500.0), 2))` and
the stock quantity `random.randint(0, 250)`. -/
def generate_products (count : Nat) (o : ProductOracle) : List ProductRec :=
  (List.range count).map fun i =>
    { name := (o.bs i).capitalize ++ " " ++ (o.word i).capitalize
      description := o.paragraph i
      price := max (1 / 100) (pyRound2 (uniform 1 2500 (o.priceDraw i)))
      category := pyChoice categories (by decide) (o.catDraw i)
      stock_quantity := randint 0 250 (o.stockDraw i) }

/-- The status list hard-coded in `generate_orders`. -/
def statuses : List String :=
  ["pending", "shipped", "delivered", "cancelled", "returned"]

/-- Oracle for the draws consumed by one iteration of `generate_orders`. -/
structure OrderOracle where
  userDraw : Nat → Nat
  productDraw : Nat → Nat
  qtyDraw : Nat → Nat
  statusDraw : Nat → Nat
  dateDraw : Nat → String

/-- `generate_orders(count, user_ids, product_ids)`: the guard
`if not user_ids or not product_ids: return []` runs before any
`random.choice`, which is what lets this embedding be a total function (the
code path with empty pools reaches no choice over an empty list and raises
nothing, returning the sentinel `[]`). -/
def generate_orders (count : Nat) (user_ids product_ids : List Nat)
    (o : OrderOracle) : List OrderRec :=
  if h : user_ids = [] ∨ product_ids = [] then []
  else
    (List.range count).map fun i =>
      { user_id := pyChoice user_ids (fun he => h (Or.inl he)) (o.userDraw i)
        product_id := pyChoice product_ids (fun he => h (Or.inr he)) (o.productDraw i)
        quantity := randint 1 8 (o.qtyDraw i)
        order_status := pyChoice statuses (by decide) (o.statusDraw i)
        order_date := o.dateDraw i }

/-- Outcome of one remote insert call in `insert_in_batches`: a response
whose `.data` holds `rows` (possibly empty), a response whose `.error` is
set, or an exception raised during the call. -/
inductive Resp where
  | ok (rows : List RetRec)
  | err (msg : String)
  | exn (msg : String)
deriving DecidableEq, Repr

/-- The rows `insert_in_batches` appends to `inserted_data` for one
response: only a response with a non-empty `.data` contributes, and an empty
`.data` contributes nothing either way. -/
def respRows : Resp → List RetRec
  | .ok rows => rows
  | .err _ => []
  | .exn _ => []

/-- The line `insert_in_batches` prints for batch `i` (0-based): success
with data reports the count, an explicit backend error and an exception are
each logged as a failure, and success without data prints nothing. -/
def batchLog (i : Nat) : Resp → List String
  | .ok rows =>
      if rows.isEmpty then []
      else ["  Batch " ++ toString (i + 1) ++ ": Inserted " ++
            toString rows.length ++ " records."]
  | .err m => ["  Batch " ++ toString (i + 1) ++ ": Failed. Error: " ++ m]
  | .exn m => ["  Batch " ++ toString (i + 1) ++ ": FAILED. Exception: " ++ m]

/-- Recursion kernel for `chunkList`: the `fuel` argument only bounds the
recursion depth (the list shrinks by at least one element per step, so
`l.length` fuel always suffices) and never influences the result. -/
def chunkListF (B : Nat) : Nat → List α → List (List α)
  | _, [] => []
  | 0, _ :: _ => []
  | fuel + 1, x :: xs => (x :: xs.take (B - 1)) :: chunkListF B fuel (xs.drop (B - 1))

/-- The batches submitted by `insert_in_batches`: the slices
`data[i:i+B]` for `i = 0, B, 2B, …` (`B > 0`; Python's `range` raises on a
zero step, and every caller passes `BATCH_SIZE = 100`). -/
def chunkList (B : Nat) (l : List α) : List (List α) := chunkListF B l.length l

theorem chunkListF_fuel_irrel (B : Nat) :
    ∀ (f₁ : Nat) (l : List α) (f₂ : Nat), l.length ≤ f₁ → l.length ≤ f₂ →
      chunkListF B f₁ l = chunkListF B f₂ l := by
  intro f₁
  induction f₁ with
  | zero =>
      intro l f₂ h₁ _
      have hl : l = [] := List.eq_nil_of_length_eq_zero (by omega)
      subst hl
      cases f₂ <;> rfl
  | succ g ih =>
      intro l f₂ h₁ h₂
      cases l with
      | nil => cases f₂ <;> rfl
      | cons x xs =>
          cases f₂ with
          | zero => simp at h₂
          | succ g₂ =>
              simp only [chunkListF]
              rw [ih (xs.drop (B - 1)) g₂]
              · simp only [List.length_drop, List.length_cons] at h₁ ⊢
                omega
              · simp only [List.length_drop, List.length_cons] at h₂ ⊢
                omega

theorem chunkList_nil (B : Nat) : chunkList B ([] : List α) = [] := rfl

theorem chunkList_cons (B : Nat) (x : α) (xs : List α) :
    chunkList B (x :: xs) = (x :: xs.take (B - 1)) :: chunkList B (xs.drop (B - 1)) := by
  simp only [chunkList, List.length_cons, chunkListF]
  rw [chunkListF_fuel_irrel B xs.length (xs.drop (B - 1)) (xs.drop (B - 1)).length]
  · simp
  · exact le_refl _

/-- The loop body of `insert_in_batches` over the remaining batches,
accumulating the confirmed rows and the printed lines; `i` is the 0-based
index of the next batch and `resp` the backend's response to each call. -/
def insertLoop (resp : Nat → Resp) : Nat → List (List α) → List RetRec × List String
  | _, [] => ([], [])
  | i, _ :: bs =>
      let r := resp i
      let rest := insertLoop resp (i + 1) bs
      (respRows r ++ rest.1, batchLog i r ++ rest.2)

/-- `insert_in_batches(table, data, batch_size)`: the returned
`inserted_data` list. -/
def insert_in_batches (resp : Nat → Resp) (data : List α) (B : Nat) : List RetRec :=
  (insertLoop resp 0 (chunkList B data)).1

/-- The per-batch lines `insert_in_batches` prints. -/
def insertPrints (resp : Nat → Resp) (data : List α) (B : Nat) : List String :=
  (insertLoop resp 0 (chunkList B data)).2

def NUM_USERS : Nat := 200

def NUM_PRODUCTS : Nat := 500

def NUM_ORDERS : Nat := 2500

def BATCH_SIZE : Nat := 100

/-- The id-pool extraction in the driver:
`[rec['id'] for rec in response if 'id' in rec]`. -/
def extractIds (rows : List RetRec) : List Nat := rows.filterMap fun r => r.id?

/-- Observable events of one driver run: a generator producing `n` records,
one remote insert call of `size` records to `table`, the early `exit()`, the
skip notice for empty orders, and normal completion. -/
inductive Event where
  | gen (table : String) (n : Nat)
  | call (table : String) (size : Nat)
  | abort
  | skipOrders
  | done
deriving DecidableEq, Repr

/-- The remote insert calls `insert_in_batches` performs for `data`: one per
submitted batch, in batch order. -/
def callsFor (table : String) (data : List α) (B : Nat) : List Event :=
  (chunkList B data).map fun b => Event.call table b.length

/-- The `__main__` block: generate and insert users, abort if no ids came
back; generate and insert products, abort if no ids came back; generate
orders from the two id pools and insert them only when some were generated.
`backend t` gives the backend's response to the `j`-th batch insert into
table `t`. -/
def pyMain (uo : UserOracle) (po : ProductOracle) (oo : OrderOracle)
    (backend : String → Nat → Resp) : List Event :=
  let users := generate_users NUM_USERS uo
  let insUsers := insert_in_batches (backend "users") users BATCH_SIZE
  let user_ids := extractIds insUsers
  let evU := Event.gen "users" users.length :: callsFor "users" users BATCH_SIZE
  if user_ids = [] then evU ++ [Event.abort]
  else
    let products := generate_products NUM_PRODUCTS po
    let insProducts := insert_in_batches (backend "products") products BATCH_SIZE
    let product_ids := extractIds insProducts
    let evP := Event.gen "products" products.length ::
      callsFor "products" products BATCH_SIZE
    if product_ids = [] then evU ++ evP ++ [Event.abort]
    else
      let orders := generate_orders NUM_ORDERS user_ids product_ids oo
      let evO := Event.gen "orders" orders.length ::
        (if orders = [] then [Event.skipOrders]
         else callsFor "orders" orders BATCH_SIZE)
      evU ++ evP ++ evO ++ [Event.done]

/-- Python truthiness of an optional environment string:
`os.environ.get` yields `None` when the variable is absent, and both `None`
and the empty string are falsy. -/
def truthy : Option String → Bool
  | none => false
  | some s => !(s == "")

/-- The module top level followed by `__main__`: the configuration check
`if not SUPABASE_URL or not SUPABASE_SERVICE_KEY: raise ValueError(...)`
runs before the client is created and before any generator or remote call,
so on a failed check the run produces an error and no events at all. -/
def program (url key : Option String) (uo : UserOracle) (po : ProductOracle)
    (oo : OrderOracle) (backend : String → Nat → Resp) : Except String (List Event) :=
  if !truthy url || !truthy key then
    .error "SUPABASE_URL and SUPABASE_SERVICE_KEY must be set in the .env file"
  else .ok (pyMain uo po oo backend)

/-! ### Lemmas about the batch slicing -/

theorem chunkList_length (B : Nat) (hB : 0 < B) :
    ∀ l : List α, (chunkList B l).length = (l.length + B - 1) / B
  | [] => by
      rw [chunkList_nil]
      simp only [List.length_nil, List.length, Nat.zero_add]
      symm
      exact Nat.div_eq_of_lt (by omega)
  | x :: xs => by
      rw [chunkList_cons]
      have ih := chunkList_length B hB (xs.drop (B - 1))
      rw [List.length_cons, ih, List.length_drop, List.length_cons]
      have h1 : xs.length + 1 + B - 1 = xs.length + B := by omega
      rw [h1, Nat.add_div_right _ hB]
      rcases le_or_lt (B - 1) xs.length with h | h
      · have h2 : xs.length - (B - 1) + B - 1 = xs.length := by omega
        rw [h2]
      · have h2 : xs.length - (B - 1) + B - 1 = B - 1 := by omega
        rw [h2, Nat.div_eq_of_lt (by omega), Nat.div_eq_of_lt (by omega)]
termination_by l => l.length
decreasing_by simp; omega

theorem chunkList_chunk_le (B : Nat) (hB : 0 < B) :
    ∀ l : List α, ∀ c ∈ chunkList B l, c.length ≤ B
  | [] => by rw [chunkList_nil]; intro c hc; cases hc
  | x :: xs => by
      rw [chunkList_cons]
      intro c hc
      rcases List.mem_cons.mp hc with rfl | hc
      · simp only [List.length_cons, List.length_take]
        omega
      · exact chunkList_chunk_le B hB (xs.drop (B - 1)) c hc
termination_by l => l.length
decreasing_by simp; omega

theorem chunkList_join (B : Nat) :
    ∀ l : List α, (chunkList B l).flatten = l
  | [] => by rw [chunkList_nil]; rfl
  | x :: xs => by
      rw [chunkList_cons]
      have ih := chunkList_join B (xs.drop (B - 1))
      simp only [List.flatten_cons, ih, List.cons_append, List.take_append_drop]
termination_by l => l.length
decreasing_by simp; omega

/-! ### Lemmas about the insert loop -/

theorem insertLoop_fst (resp : Nat → Resp) (bs : List (List α)) :
    ∀ i : Nat, (insertLoop resp i bs).1
      = ((List.range bs.length).map fun j => respRows (resp (i + j))).flatten := by
  induction bs with
  | nil => intro i; rfl
  | cons b bs ih =>
      intro i
      have hshift : ∀ j : Nat, i + 1 + j = i + (j + 1) := fun j => by omega
      simp only [insertLoop, ih (i + 1), List.length_cons, List.range_succ_eq_map,
        List.map_cons, List.flatten_cons, List.map_map, Function.comp_def, hshift,
        Nat.add_zero]

theorem insertLoop_snd (resp : Nat → Resp) (bs : List (List α)) :
    ∀ i : Nat, (insertLoop resp i bs).2
      = ((List.range bs.length).map fun j => batchLog (i + j) (resp (i + j))).flatten := by
  induction bs with
  | nil => intro i; rfl
  | cons b bs ih =>
      intro i
      have hshift : ∀ j : Nat, i + 1 + j = i + (j + 1) := fun j => by omega
      simp only [insertLoop, ih (i + 1), List.length_cons, List.range_succ_eq_map,
        List.map_cons, List.flatten_cons, List.map_map, Function.comp_def, hshift,
        Nat.add_zero]

theorem mem_insertLoop_fst (resp : Nat → Resp) (bs : List (List α)) :
    ∀ (i : Nat) (r : RetRec), r ∈ (insertLoop resp i bs).1 →
      ∃ j rows, i ≤ j ∧ j < i + bs.length ∧ resp j = Resp.ok rows ∧ r ∈ rows := by
  induction bs with
  | nil => intro i r hr; cases hr
  | cons b bs ih =>
      intro i r hr
      rcases List.mem_append.mp hr with hl | hrest
      · cases hre : resp i with
        | ok rows =>
            refine ⟨i, rows, le_refl i, by simp, hre, ?_⟩
            rw [hre] at hl
            exact hl
        | err m => rw [hre] at hl; cases hl
        | exn m => rw [hre] at hl; cases hl
      · obtain ⟨j, rows, h1, h2, h3, h4⟩ := ih (i + 1) r hrest
        exact ⟨j, rows, by omega, by simp only [List.length_cons]; omega, h3, h4⟩

theorem mem_extractIds (rows : List RetRec) (x : Nat) :
    x ∈ extractIds rows ↔ ∃ r ∈ rows, r.id? = some x := by
  simp [extractIds]

/-! ### Concrete fixtures used to instantiate the theorems -/

def cUO : UserOracle :=
  { name := fun _ => "", email := fun _ => "", city := fun _ => "",
    signup_date := fun _ => "" }

def cInjUO : UserOracle :=
  { name := fun _ => "", email := fun i => String.mk (List.replicate i 'a'),
    city := fun _ => "", signup_date := fun _ => "" }

def cPO : ProductOracle :=
  { bs := fun _ => "", word := fun _ => "", paragraph := fun _ => "",
    priceDraw := fun _ => 0, catDraw := fun _ => 0, stockDraw := fun _ => 0 }

def cOO : OrderOracle :=
  { userDraw := fun _ => 0, productDraw := fun _ => 0, qtyDraw := fun _ => 0,
    statusDraw := fun _ => 0, dateDraw := fun _ => "" }

def cResp : Nat → Resp :=
  fun j => if j = 0 then Resp.exn "connection reset" else Resp.ok [⟨some 1⟩]

/-! ### Claim theorems -/

/-- C1: for every record list and every batch size `B > 0`, the batch
inserter submits exactly `⌈N/B⌉` chunks, each of size at most `B`, and the
chunks are contiguous slices of the input that cover every record exactly
once in the original order (their concatenation is the input itself). -/
theorem batch_chunks_cover (data : List α) (B : Nat) (hB : 0 < B) :
    (chunkList B data).length = (data.length + B - 1) / B
    ∧ (∀ c ∈ chunkList B data, c.length ≤ B)
    ∧ (chunkList B data).flatten = data :=
  ⟨chunkList_length B hB data, chunkList_chunk_le B hB data, chunkList_join B data⟩

theorem batch_chunks_cover_witness :
    0 < 2
    ∧ ((chunkList 2 [10, 20, 30, 40, 50]).length = (5 + 2 - 1) / 2
      ∧ (∀ c ∈ chunkList 2 [10, 20, 30, 40, 50], c.length ≤ 2)
      ∧ (chunkList 2 [10, 20, 30, 40, 50]).flatten = [10, 20, 30, 40, 50]) :=
  ⟨by decide, batch_chunks_cover [10, 20, 30, 40, 50] 2 (by decide)⟩

/-- C5: a chunk whose submission raises an exception or whose response
reports an explicit error contributes nothing to the accumulated list and is
logged as failed, the loop continues through every remaining chunk, and the
inserter returns exactly the rows the backend confirmed for the successful
batches — each batch index is consulted exactly once, so nothing is
retried, and the embedding is a total function, so no exception escapes. -/
theorem batch_failure_nonfatal (resp : Nat → Resp) (data : List α) (B : Nat)
    (hB : 0 < B) :
    insert_in_batches resp data B
      = ((List.range (chunkList B data).length).map fun j => respRows (resp j)).flatten
    ∧ insertPrints resp data B
      = ((List.range (chunkList B data).length).map fun j => batchLog j (resp j)).flatten
    ∧ (∀ m, respRows (Resp.err m) = [] ∧ respRows (Resp.exn m) = [])
    ∧ ∀ j m, batchLog j (Resp.err m)
          = ["  Batch " ++ toString (j + 1) ++ ": Failed. Error: " ++ m]
        ∧ batchLog j (Resp.exn m)
          = ["  Batch " ++ toString (j + 1) ++ ": FAILED. Exception: " ++ m] := by
  refine ⟨?_, ?_, fun m => ⟨rfl, rfl⟩, fun j m => ⟨rfl, rfl⟩⟩
  · simpa [insert_in_batches] using insertLoop_fst resp (chunkList B data) 0
  · simpa [insertPrints] using insertLoop_snd resp (chunkList B data) 0

theorem batch_failure_nonfatal_witness :
    0 < 2
    ∧ (insert_in_batches cResp [1, 2, 3] 2
        = ((List.range (chunkList 2 [1, 2, 3]).length).map
            fun j => respRows (cResp j)).flatten
      ∧ insertPrints cResp [1, 2, 3] 2
        = ((List.range (chunkList 2 [1, 2, 3]).length).map
            fun j => batchLog j (cResp j)).flatten
      ∧ (∀ m, respRows (Resp.err m) = [] ∧ respRows (Resp.exn m) = [])
      ∧ ∀ j m, batchLog j (Resp.err m)
            = ["  Batch " ++ toString (j + 1) ++ ": Failed. Error: " ++ m]
          ∧ batchLog j (Resp.exn m)
            = ["  Batch " ++ toString (j + 1) ++ ": FAILED. Exception: " ++ m]) :=
  ⟨by decide, batch_failure_nonfatal cResp [1, 2, 3] 2 (by decide)⟩

/-- C2: each generator returns exactly `N` records for every `N ≥ 0`; the
order generator does so whenever both id pools are non-empty and returns no
records otherwise. -/
theorem generator_counts (n : Nat) (uo : UserOracle) (po : ProductOracle)
    (oo : OrderOracle) (uids pids : List Nat) :
    (generate_users n uo).length = n
    ∧ (generate_products n po).length = n
    ∧ (uids ≠ [] → pids ≠ [] → (generate_orders n uids pids oo).length = n)
    ∧ ((uids = [] ∨ pids = []) → generate_orders n uids pids oo = []) := by
  refine ⟨by simp [generate_users], by simp [generate_products], ?_, ?_⟩
  · intro hu hp
    simp only [generate_orders]
    rw [dif_neg (not_or.mpr ⟨hu, hp⟩)]
    simp
  · intro h
    simp only [generate_orders]
    rw [dif_pos h]

theorem generator_counts_witness :
    (generate_users 3 cUO).length = 3
    ∧ (generate_products 3 cPO).length = 3
    ∧ (generate_orders 3 [1] [2] cOO).length = 3
    ∧ generate_orders 3 [] [2] cOO = [] :=
  ⟨(generator_counts 3 cUO cPO cOO [1] [2]).1,
   (generator_counts 3 cUO cPO cOO [1] [2]).2.1,
   (generator_counts 3 cUO cPO cOO [1] [2]).2.2.1 (by decide) (by decide),
   (generator_counts 3 cUO cPO cOO [] [2]).2.2.2 (Or.inl rfl)⟩

/-- C6: with an empty user id pool or an empty product id pool the order
generator returns the empty sentinel; the guard runs before any
`random.choice`, so this code path can raise nothing (the embedding is a
total function precisely because the guard supplies the nonemptiness the
choices need). -/
theorem order_empty_pool_sentinel (n : Nat) (uids pids : List Nat)
    (oo : OrderOracle) (h : uids = [] ∨ pids = []) :
    generate_orders n uids pids oo = [] := by
  simp only [generate_orders]
  rw [dif_pos h]

theorem order_empty_pool_sentinel_witness :
    (([] : List Nat) = [] ∨ [3] = ([] : List Nat))
    ∧ generate_orders 5 [] [3] cOO = [] :=
  ⟨Or.inl rfl, order_empty_pool_sentinel 5 [] [3] cOO (Or.inl rfl)⟩

/-- C7: within one call of the user generator all emails are pairwise
distinct; `fake.unique.email()` never repeats a value within the uniqueness
session spanning the call, modelled as injectivity of the email oracle. -/
theorem user_emails_distinct (n : Nat) (uo : UserOracle)
    (h : Function.Injective uo.email) :
    (generate_users n uo).Pairwise fun a b => a.email ≠ b.email := by
  unfold generate_users
  rw [List.pairwise_map]
  refine (List.pairwise_lt_range n).imp ?_
  intro i j hij he
  exact absurd (h he) (Nat.ne_of_lt hij)

theorem user_emails_distinct_witness :
    Function.Injective cInjUO.email
    ∧ (generate_users 3 cInjUO).Pairwise fun a b => a.email ≠ b.email := by
  have hinj : Function.Injective cInjUO.email := by
    intro a b hab
    have h2 := congrArg (fun s => s.data.length) hab
    simpa [cInjUO] using h2
  exact ⟨hinj, user_emails_distinct 3 cInjUO hinj⟩

/-! ### Helpers shared by the driver theorems -/

theorem generate_users_length (n : Nat) (uo : UserOracle) :
    (generate_users n uo).length = n := by
  simp [generate_users]

theorem generate_orders_mem_pools (n : Nat) (uids pids : List Nat)
    (oo : OrderOracle) (o : OrderRec) (ho : o ∈ generate_orders n uids pids oo) :
    o.user_id ∈ uids ∧ o.product_id ∈ pids := by
  simp only [generate_orders] at ho
  split at ho
  · cases ho
  · rcases List.mem_map.mp ho with ⟨i, _, rfl⟩
    exact ⟨List.get_mem uids _ _, List.get_mem pids _ _⟩

theorem pool_ids_from_confirmed (resp : Nat → Resp) (data : List γ) (B : Nat)
    (x : Nat) (hx : x ∈ extractIds (insert_in_batches resp data B)) :
    ∃ j rows r, j < (chunkList B data).length ∧ resp j = Resp.ok rows
      ∧ r ∈ rows ∧ r.id? = some x := by
  rcases (mem_extractIds _ x).mp hx with ⟨r, hr, hid⟩
  rcases mem_insertLoop_fst resp (chunkList B data) 0 r hr with
    ⟨j, rows, h1, h2, h3, h4⟩
  exact ⟨j, rows, r, by omega, h3, h4, hid⟩

theorem pyMain_users_empty (uo : UserOracle) (po : ProductOracle)
    (oo : OrderOracle) (backend : String → Nat → Resp)
    (h : extractIds (insert_in_batches (backend "users")
          (generate_users NUM_USERS uo) BATCH_SIZE) = []) :
    pyMain uo po oo backend
      = Event.gen "users" NUM_USERS
        :: (callsFor "users" (generate_users NUM_USERS uo) BATCH_SIZE
            ++ [Event.abort]) := by
  simp only [pyMain]
  rw [if_pos h, generate_users_length, List.cons_append]

/-! ### Remaining claim theorems -/

def cRespU : Nat → Resp := fun _ => Resp.ok [⟨some 5⟩]

def cRespP : Nat → Resp := fun _ => Resp.ok [⟨some 7⟩]

def cOrder : OrderRec :=
  { user_id := 5, product_id := 7, quantity := 1, order_status := "pending",
    order_date := "" }

/-- C3: every generated order draws its `user_id` from the supplied user id
pool and its `product_id` from the supplied product id pool; with the pools
built the way the driver builds them — extracting `id` keys from the rows
the batch inserter accumulated — every order therefore references an id
carried by a record the backend returned in a prior successful insert batch
(a batch whose response held data). -/
theorem orders_reference_confirmed (n : Nat) (oo : OrderOracle)
    (uresp presp : Nat → Resp) (udata : List γ) (pdata : List δ) (B : Nat)
    (o : OrderRec)
    (ho : o ∈ generate_orders n
            (extractIds (insert_in_batches uresp udata B))
            (extractIds (insert_in_batches presp pdata B)) oo) :
    (∃ j rows r, j < (chunkList B udata).length ∧ uresp j = Resp.ok rows
      ∧ r ∈ rows ∧ r.id? = some o.user_id)
    ∧ (∃ j rows r, j < (chunkList B pdata).length ∧ presp j = Resp.ok rows
      ∧ r ∈ rows ∧ r.id? = some o.product_id) := by
  have hmem := generate_orders_mem_pools n _ _ oo o ho
  exact ⟨pool_ids_from_confirmed uresp udata B _ hmem.1,
         pool_ids_from_confirmed presp pdata B _ hmem.2⟩

set_option maxRecDepth 4000 in
theorem orders_reference_confirmed_witness :
    cOrder ∈ generate_orders 1
        (extractIds (insert_in_batches cRespU [0] 1))
        (extractIds (insert_in_batches cRespP [0] 1)) cOO
    ∧ ((∃ j rows r, j < (chunkList 1 [0]).length ∧ cRespU j = Resp.ok rows
        ∧ r ∈ rows ∧ r.id? = some cOrder.user_id)
      ∧ (∃ j rows r, j < (chunkList 1 [0]).length ∧ cRespP j = Resp.ok rows
        ∧ r ∈ rows ∧ r.id? = some cOrder.product_id)) :=
  ⟨by decide,
   orders_reference_confirmed 1 cOO cRespU cRespP [0] [0] 1 cOrder (by decide)⟩

def cBE : String → Nat → Resp := fun _ _ => Resp.err "connection refused"

/-- C4: when the user insert stage yields an empty pool of confirmed ids the
driver's trace is exactly the user-stage events followed by the abort — the
run terminates there, and no product or order generation and no remote call
to the products or orders tables ever appears in it. -/
theorem users_empty_halts_pipeline (uo : UserOracle) (po : ProductOracle)
    (oo : OrderOracle) (backend : String → Nat → Resp)
    (h : extractIds (insert_in_batches (backend "users")
          (generate_users NUM_USERS uo) BATCH_SIZE) = []) :
    pyMain uo po oo backend
      = Event.gen "users" NUM_USERS
        :: (callsFor "users" (generate_users NUM_USERS uo) BATCH_SIZE
            ++ [Event.abort])
    ∧ ∀ e ∈ pyMain uo po oo backend,
        (∀ m, e ≠ Event.gen "products" m) ∧ (∀ m, e ≠ Event.gen "orders" m)
        ∧ (∀ s, e ≠ Event.call "products" s)
        ∧ (∀ s, e ≠ Event.call "orders" s) := by
  have htrace := pyMain_users_empty uo po oo backend h
  refine ⟨htrace, ?_⟩
  intro e he
  rw [htrace] at he
  rcases List.mem_cons.mp he with rfl | he
  · exact ⟨fun m hm => by simp at hm, fun m hm => by simp at hm,
      fun s hs => by simp at hs, fun s hs => by simp at hs⟩
  rcases List.mem_append.mp he with hc | ha
  · simp only [callsFor] at hc
    rcases List.mem_map.mp hc with ⟨b, _, rfl⟩
    exact ⟨fun m hm => by simp at hm, fun m hm => by simp at hm,
      fun s hs => by simp at hs, fun s hs => by simp at hs⟩
  · rcases List.mem_singleton.mp ha with rfl
    exact ⟨fun m hm => by simp at hm, fun m hm => by simp at hm,
      fun s hs => by simp at hs, fun s hs => by simp at hs⟩

set_option maxRecDepth 4000 in
theorem users_empty_halts_pipeline_witness :
    extractIds (insert_in_batches (cBE "users")
        (generate_users NUM_USERS cUO) BATCH_SIZE) = []
    ∧ (pyMain cUO cPO cOO cBE
        = Event.gen "users" NUM_USERS
          :: (callsFor "users" (generate_users NUM_USERS cUO) BATCH_SIZE
              ++ [Event.abort])
      ∧ ∀ e ∈ pyMain cUO cPO cOO cBE,
          (∀ m, e ≠ Event.gen "products" m) ∧ (∀ m, e ≠ Event.gen "orders" m)
          ∧ (∀ s, e ≠ Event.call "products" s)
          ∧ (∀ s, e ≠ Event.call "orders" s)) :=
  ⟨by decide, users_empty_halts_pipeline cUO cPO cOO cBE (by decide)⟩

instance : Inhabited ProductRec :=
  ⟨{ name := "", description := "", price := 0, category := "",
     stock_quantity := 0 }⟩

def cProd : ProductRec := (generate_products 1 cPO).headI

/-- C8: every generated product has a price strictly greater than `0` that
is an integer number of hundredths (the result of rounding to 2 decimal
places), and a non-negative integer stock quantity. -/
theorem product_price_stock (n : Nat) (po : ProductOracle) (p : ProductRec)
    (hp : p ∈ generate_products n po) :
    0 < p.price ∧ (∃ k : ℤ, p.price = (k : ℚ) / 100) ∧ 0 ≤ p.stock_quantity := by
  simp only [generate_products] at hp
  rcases List.mem_map.mp hp with ⟨i, _, rfl⟩
  refine ⟨lt_of_lt_of_le (by norm_num) (le_max_left _ _), ?_, ?_⟩
  · refine ⟨max 1 (roundHalfEven (uniform 1 2500 (po.priceDraw i) * 100)), ?_⟩
    simp only [pyRound2]
    rw [Int.cast_max, ← max_div_div_right (by norm_num : (0:ℚ) ≤ 100)]
    norm_num
  · simp only [randint]
    positivity

theorem product_price_stock_witness :
    cProd ∈ generate_products 1 cPO
    ∧ (0 < cProd.price ∧ (∃ k : ℤ, cProd.price = (k : ℚ) / 100)
      ∧ 0 ≤ cProd.stock_quantity) :=
  ⟨by show cProd ∈ [cProd]; exact List.mem_singleton_self cProd,
   product_price_stock 1 cPO cProd
     (by show cProd ∈ [cProd]; exact List.mem_singleton_self cProd)⟩

/-- C9: if the endpoint URL or the credential key is absent from the
environment, the run yields the fatal configuration error and produces no
events at all — in particular no data generation and no remote call. -/
theorem missing_config_fatal (url key : Option String) (uo : UserOracle)
    (po : ProductOracle) (oo : OrderOracle) (backend : String → Nat → Resp)
    (h : url = none ∨ key = none) :
    program url key uo po oo backend
      = Except.error
          "SUPABASE_URL and SUPABASE_SERVICE_KEY must be set in the .env file"
    ∧ ∀ evs, program url key uo po oo backend ≠ Except.ok evs := by
  have herr : program url key uo po oo backend
      = Except.error
          "SUPABASE_URL and SUPABASE_SERVICE_KEY must be set in the .env file" := by
    rcases h with rfl | rfl
    · simp [program, truthy]
    · simp [program, truthy]
  refine ⟨herr, fun evs hok => ?_⟩
  rw [herr] at hok
  exact Except.noConfusion hok

theorem missing_config_fatal_witness :
    ((none : Option String) = none ∨ (some "service-key" : Option String) = none)
    ∧ (program none (some "service-key") cUO cPO cOO cBE
        = Except.error
            "SUPABASE_URL and SUPABASE_SERVICE_KEY must be set in the .env file"
      ∧ ∀ evs, program none (some "service-key") cUO cPO cOO cBE ≠ Except.ok evs) :=
  ⟨Or.inl rfl,
   missing_config_fatal none (some "service-key") cUO cPO cOO cBE (Or.inl rfl)⟩

def cBEnoId : String → Nat → Resp := fun _ _ => Resp.ok [⟨none⟩]

/-- C10: the driver's id pools keep only returned records carrying an `id`
key, so if every row the backend confirmed for the user stage lacks one —
even though every batch insert succeeded with data — the user id pool is
empty and the driver aborts with exactly the same trace as the
zero-inserts case. -/
theorem missing_id_keys_abort (uo : UserOracle) (po : ProductOracle)
    (oo : OrderOracle) (backend : String → Nat → Resp)
    (hok : ∀ j, ∃ rows, backend "users" j = Resp.ok rows ∧ rows ≠ [])
    (hnoid : ∀ r ∈ insert_in_batches (backend "users")
        (generate_users NUM_USERS uo) BATCH_SIZE, r.id? = none) :
    extractIds (insert_in_batches (backend "users")
        (generate_users NUM_USERS uo) BATCH_SIZE) = []
    ∧ pyMain uo po oo backend
      = Event.gen "users" NUM_USERS
        :: (callsFor "users" (generate_users NUM_USERS uo) BATCH_SIZE
            ++ [Event.abort]) := by
  have hids : extractIds (insert_in_batches (backend "users")
      (generate_users NUM_USERS uo) BATCH_SIZE) = [] := by
    simp only [extractIds]
    exact List.filterMap_eq_nil_iff.mpr hnoid
  exact ⟨hids, pyMain_users_empty uo po oo backend hids⟩

set_option maxRecDepth 4000 in
theorem missing_id_keys_abort_witness :
    (∀ j, ∃ rows, cBEnoId "users" j = Resp.ok rows ∧ rows ≠ [])
    ∧ (∀ r ∈ insert_in_batches (cBEnoId "users")
        (generate_users NUM_USERS cUO) BATCH_SIZE, r.id? = none)
    ∧ (extractIds (insert_in_batches (cBEnoId "users")
          (generate_users NUM_USERS cUO) BATCH_SIZE) = []
      ∧ pyMain cUO cPO cOO cBEnoId
        = Event.gen "users" NUM_USERS
          :: (callsFor "users" (generate_users NUM_USERS cUO) BATCH_SIZE
              ++ [Event.abort])) :=
  ⟨fun j => ⟨[⟨none⟩], rfl, by decide⟩, by decide,
   missing_id_keys_abort cUO cPO cOO cBEnoId
     (fun j => ⟨[⟨none⟩], rfl, by decide⟩) (by decide)⟩

end PopulateDb
